import Mathlib

/-!
Verification of the notes-generation core of the `classmate` repository.

Strings from the Python source are modelled as lists of characters
(`Str := List Char`); Python string methods (`strip`, `lower`, `in`,
`join`, `split`) are embedded as executable Lean functions below.
Case conversion uses `Char.toUpper`/`Char.toLower`, which agree with
Python on the ASCII range handled by this repository.
-/

namespace Classmate

abbrev Str := List Char

/-- Python whitespace class for `str.strip` and the regex `\s`:
space, tab, newline, carriage return, vertical tab, form feed. -/
def isSpaceChar (c : Char) : Bool :=
  c == ' ' || c == '\t' || c == '\n' || c == '\r' ||
  c == Char.ofNat 11 || c == Char.ofNat 12

/-- Sentence-ending punctuation of the regex `(?<=[.!?])`. -/
def isSentEnd (c : Char) : Bool :=
  c == '.' || c == '!' || c == '?'

/-- Python `str.strip()`: drop leading and trailing whitespace. -/
def pyStrip (s : Str) : Str :=
  ((s.dropWhile isSpaceChar).reverse.dropWhile isSpaceChar).reverse

/-- Python `str.lower()` (ASCII range). -/
def pyLower (s : Str) : Str :=
  s.map Char.toLower

/-- Does `hay` start with `needle`? -/
def startsWithChars : Str → Str → Bool
  | [], _ => true
  | _ :: _, [] => false
  | a :: as, b :: bs => a == b && startsWithChars as bs

/-- Python `needle in hay`: substring containment. -/
def containsSub (needle : Str) : Str → Bool
  | [] => startsWithChars needle []
  | hay@(_ :: rest) => startsWithChars needle hay || containsSub needle rest

/-- Python `" ".join(parts)`. -/
def joinSpace : List Str → Str
  | [] => []
  | [s] => s
  | s :: rest => s ++ ' ' :: joinSpace rest

/-- Head character test used by the sentence splitter: the accumulator is
kept reversed, so its head is the character written immediately before the
current position. -/
def headSentEnd : Str → Bool
  | [] => false
  | c :: _ => isSentEnd c

/-- Embedding of `re.split(r"(?<=[.!?])\s+", text)`: a separator is a
maximal whitespace run immediately preceded by `.`, `!` or `?`.
`sep` is true while consuming a separator run (the fragment before it is
already emitted); `cur` is the reversed accumulator of the current
fragment. -/
def splitOnSentencesAux (sep : Bool) (cur : Str) (l : Str) : List Str :=
  match l with
  | [] => if sep then [[]] else [cur.reverse]
  | c :: rest =>
    if sep then
      if isSpaceChar c then splitOnSentencesAux true [] rest
      else splitOnSentencesAux false [c] rest
    else if isSpaceChar c && headSentEnd cur then
      cur.reverse :: splitOnSentencesAux true [] rest
    else
      splitOnSentencesAux false (c :: cur) rest

/-- The sentence preprocessing shared by the Summary, KeyPoints,
ActionItems and Refiner agents:
`[s.strip() for s in re.split(r"(?<=[.!?])\s+", transcript.strip()) if s.strip()]`. -/
def sentencesOf (transcript : Str) : List Str :=
  ((splitOnSentencesAux false [] (pyStrip transcript)).map pyStrip).filter
    (fun s => !s.isEmpty)

/-! ### Text Tools (`src/ai_backend/agents/tools.py`) -/

/-- Stage and category names used throughout the pipeline. -/
def sMeeting : Str := "meeting".toList

def sLecture : Str := "lecture".toList

def sInterview : Str := "interview".toList

def sGeneric : Str := "generic".toList

/-- The fixed keyword table of `Tools.classify_transcript`
(`signals` in the source, in declaration order). -/
def signals : List (Str × List Str) :=
  [ (sMeeting, ["agenda", "minutes", "action item", "next steps",
                "follow up", "deadline"].map String.toList),
    (sLecture, ["chapter", "lecture", "professor", "today we will",
                "slides", "syllabus"].map String.toList),
    (sInterview, ["tell me about", "walk me through", "why did you",
                  "can you explain"].map String.toList) ]

/-- The per-category scoring loop:
`for kw in keywords: if kw in text: scores[label] += 1`. -/
def categoryScore (text : Str) (keywords : List Str) : Nat :=
  keywords.foldl (fun n kw => if containsSub kw text then n + 1 else n) 0

/-- `max(scores.items(), key=lambda kv: kv[1])`: Python `max` keeps the
first element among those with the maximal key, so a later entry replaces
the current best only when strictly greater. -/
def pickBest (first : Str × Nat) (rest : List (Str × Nat)) : Str × Nat :=
  rest.foldl (fun acc kv => if kv.2 > acc.2 then kv else acc) first

structure Classification where
  label : Str
  scores : List (Str × Nat)
deriving Repr, DecidableEq

/-- `Tools.classify_transcript` (the `output` dict of the tool result). -/
def classifyTranscript (transcript : Str) : Classification :=
  let text := pyLower transcript
  let scores := signals.map (fun p => (p.1, categoryScore text p.2))
  let best := pickBest (sMeeting, categoryScore text (signals.head!).2)
      (scores.drop 1)
  { label := if best.2 > 0 then best.1 else sGeneric
    scores := scores }

structure Entity where
  text : Str
  count : Nat
deriving Repr, DecidableEq

/-- Word characters of the regex class `\w` (ASCII): used to decide the
`\b` boundaries in `Tools.extract_entities`. -/
def isWordChar (c : Char) : Bool :=
  c.isAlphanum || c == '_'

/-- Character class `[a-zA-Z0-9\-']` of the entity regex. -/
def isEntBodyChar (c : Char) : Bool :=
  c.isAlphanum || c == '-' || c == Char.ofNat 39

/-- Backtracking search for the end of one match of the entity regex:
given the greedy run over the body class in reversed form and the
character that follows it (`none` at end of input), find the longest
body whose final `\b` holds, i.e. whose last character and the character
after it differ in word-character-ness; bodies shorter than the `{2,}`
bound are rejected. -/
def entBody (runRev : Str) (next : Option Char) : Option Str :=
  match runRev with
  | [] => none
  | c :: cs =>
    if isWordChar c != (match next with | some d => isWordChar d | none => false) then
      if runRev.length ≥ 2 then some runRev else none
    else
      entBody cs (some c)

/-- One candidate of `re.findall(r"\b[A-Z][a-zA-Z0-9\-']{2,}\b", transcript)`
starting at an uppercase character `c0`: greedy run over the body class,
backtracked by `entBody` until the trailing boundary holds. -/
def entityAt (c0 : Char) (rest : Str) : Option Str :=
  let run := rest.takeWhile isEntBodyChar
  let after := rest.drop run.length
  match entBody run.reverse after.head? with
  | some bodyRev => some (c0 :: bodyRev.reverse)
  | none => none

/-- Scanner for `re.findall(r"\b[A-Z][a-zA-Z0-9\-']{2,}\b", transcript)`.
`prevIsWord` records whether the previous character was a word character
(the leading `\b`).  After a match the scan resumes after the greedy run;
the skipped characters are in the body class but outside the matched
body, where no new match can start. -/
def entityScan (prevIsWord : Bool) (l : Str) : List Str :=
  match l with
  | [] => []
  | c :: rest =>
    if !prevIsWord && c.isUpper then
      match entityAt c rest with
      | some tok =>
        tok :: entityScan true (rest.drop (rest.takeWhile isEntBodyChar).length)
      | none => entityScan (isWordChar c) rest
    else
      entityScan (isWordChar c) rest
termination_by l.length
decreasing_by
  · simp only [List.length_drop, List.length_cons]
    omega
  · simp
  · simp

/-- Counting loop of `extract_entities`: first-seen order is preserved
(Python dict insertion order). -/
def freqFold (acc : List (Str × Nat)) (c : Str) : List (Str × Nat) :=
  if acc.any (fun p => p.1 == c) then
    acc.map (fun p => if p.1 == c then (p.1, p.2 + 1) else p)
  else
    acc ++ [(c, 1)]

/-- Insertion sort by count descending; stable, so ties keep first-seen
order exactly like Python `sorted(..., reverse=True)`. -/
def insertByCount (x : Str × Nat) : List (Str × Nat) → List (Str × Nat)
  | [] => [x]
  | y :: ys => if x.2 ≥ y.2 then x :: y :: ys else y :: insertByCount x ys

def sortByCountDesc (l : List (Str × Nat)) : List (Str × Nat) :=
  l.foldr insertByCount []

/-- `Tools.extract_entities` with the default `max_items = 25`
(the `entities` list of the output dict). -/
def extractEntities (transcript : Str) : List Entity :=
  let candidates := entityScan false transcript
  let freq := candidates.foldl freqFold []
  ((sortByCountDesc freq).take 25).map (fun p => { text := p.1, count := p.2 })

/-- The fixed verb list of `Tools.extract_action_verbs`. -/
def actionVerbList : List Str :=
  ["should", "must", "need to", "have to", "will", "plan to",
   "decide", "schedule", "follow up", "email"].map String.toList

/-- `Tools.extract_action_verbs` with the default `max_items = 25`
(the `verbs` list of the output dict). -/
def extractActionVerbs (transcript : Str) : List Str :=
  let text := pyLower transcript
  ((actionVerbList.filter (fun v => containsSub v text)).take 25)

/-! ### Stage agents (`src/ai_backend/agents/note_agents.py`,
`router_agent.py`): the pure computation of each `run` method.  Audit
events and memory writes are added by the orchestrator-level wrappers
further below. -/

/-- `SummaryAgent.run`: output string. -/
def summaryRun (transcript : Str) : Str :=
  let sentences := sentencesOf transcript
  if sentences.length ≤ 2 then
    pyStrip transcript
  else
    pyStrip (joinSpace (sentences.take 3))

/-- `s[0].upper() + s[1:] if s else s`. -/
def capFirst (s : Str) : Str :=
  match s with
  | [] => []
  | c :: cs => Char.toUpper c :: cs

/-- The fixed keyword list of `KeyPointsAgent.run`. -/
def importantKeywords : List Str :=
  ["important", "key", "main", "primary", "essential", "critical",
   "remember", "note", "pay attention", "focus on", "highlight"].map
    String.toList

/-- The sentence filter shared by `KeyPointsAgent.run` and
`ActionItemsAgent.run`: keep sentences whose lower-casing contains one
of the keywords, capitalize the first character, keep only strings
longer than 10 characters, cap at 5. -/
def keywordPick (keywords : List Str) (transcript : Str) : List Str :=
  ((sentencesOf transcript).filterMap (fun s =>
    if keywords.any (fun k => containsSub k (pyLower s)) then
      if (capFirst s).length > 10 then some (capFirst s) else none
    else none)).take 5

/-- `KeyPointsAgent.run`: output list. -/
def keyPointsRun (transcript : Str) : List Str :=
  keywordPick importantKeywords transcript

/-- The fixed verb list of `ActionItemsAgent.run` (distinct from the
Router tool list). -/
def actionItemVerbs : List Str :=
  ["should", "must", "need to", "have to", "will", "can",
   "do", "make", "create", "implement", "complete", "finish"].map
    String.toList

/-- `ActionItemsAgent.run`: output list. -/
def actionItemsRun (transcript : Str) : List Str :=
  keywordPick actionItemVerbs transcript

/-- One evaluation issue: the dicts `{"type": ..., "count": ...}` that
`EvaluatorAgent.run` appends to its issue list. -/
structure Issue where
  type : Str
  count : Option Nat
deriving Repr, DecidableEq

def sEmptySummary : Str := "empty_summary".toList

def sTooManyKeyPoints : Str := "too_many_key_points".toList

def sTooManyActionItems : Str := "too_many_action_items".toList

/-- The working context as read by `EvaluatorAgent.run`:
`context.get("summary")` (absent key = `none`), and
`context.get("key_points") or []` / `context.get("action_items") or []`. -/
structure EvalCtx where
  summary : Option Str
  key_points : List Str
  action_items : List Str
deriving Repr, DecidableEq

/-- `EvaluatorAgent.run`: the issue list of the output. -/
def evaluatorIssues (ctx : EvalCtx) : List Issue :=
  (match ctx.summary with
   | some s => if (pyStrip s).length = 0 then [⟨sEmptySummary, none⟩] else []
   | none => []) ++
  (if ctx.key_points.length > 7 then
    [⟨sTooManyKeyPoints, some ctx.key_points.length⟩] else []) ++
  (if ctx.action_items.length > 7 then
    [⟨sTooManyActionItems, some ctx.action_items.length⟩] else [])

/-- Context as read by `RefinerAgent.run`: the three artifact fields and
the most recent evaluator output
(`ctx.get("evaluator") or {}` / `.get("issues") or []`). -/
structure RefCtx where
  summary : Option Str
  key_points : List Str
  action_items : List Str
  issues : List Issue
deriving Repr, DecidableEq

/-- Intermediate state of `RefinerAgent.run` after the issue loop. -/
structure RefFixed where
  summary : Str
  key_points : List Str
  action_items : List Str
  applied : List Str
deriving Repr, DecidableEq

/-- One iteration of the issue loop of `RefinerAgent.run`. -/
def refinerStep (transcript : Str) (st : RefFixed) (issue : Issue) : RefFixed :=
  let st :=
    if issue.type = sEmptySummary then
      let sentences := sentencesOf transcript
      { st with
        summary := pyStrip (if !sentences.isEmpty then
            joinSpace (sentences.take 2) else pyStrip transcript)
        applied := st.applied ++ ["refiner_filled_summary".toList] }
    else st
  let st :=
    if issue.type = sTooManyKeyPoints then
      { st with
        key_points := st.key_points.take 5
        applied := st.applied ++ ["refiner_trim_key_points".toList] }
    else st
  if issue.type = sTooManyActionItems then
    { st with
      action_items := st.action_items.take 5
      applied := st.applied ++ ["refiner_trim_action_items".toList] }
  else st

/-- The issue-driven fixes of `RefinerAgent.run` (everything before the
entity-aware polish). -/
def refinerFixes (transcript : Str) (ctx : RefCtx) : RefFixed :=
  ctx.issues.foldl (refinerStep transcript)
    { summary := pyStrip (ctx.summary.getD [])
      key_points := ctx.key_points
      action_items := ctx.action_items
      applied := [] }

/-- `top_entities = [e.get("text") for e in entities[:5] if e.get("text")]`. -/
def topEntities (entities : List Entity) : List Str :=
  ((entities.take 5).filter (fun e => !e.text.isEmpty)).map Entity.text

/-- The parenthetical context hint
`f"{summary} (Context: {', '.join(top_entities[:3])}.)"`. -/
def entityHint (summary : Str) (tops : List Str) : Str :=
  summary ++ " (Context: ".toList ++
    (joinComma (tops.take 3)) ++ ".)".toList
where
  joinComma : List Str → Str
    | [] => []
    | [s] => s
    | s :: rest => s ++ ", ".toList ++ joinComma rest

/-- Full result of `RefinerAgent.run`: issue fixes, then the
entity-aware polish appending a context hint when the summary mentions
none of the top entities. -/
def refinerCompute (transcript : Str) (ctx : RefCtx)
    (entities : List Entity) : RefFixed :=
  let st := refinerFixes transcript ctx
  let tops := topEntities entities
  if !st.summary.isEmpty && !tops.isEmpty then
    if !tops.any (fun e => containsSub e st.summary) then
      { st with
        summary := entityHint st.summary tops
        applied := st.applied ++ ["refiner_entity_context_added".toList] }
    else st
  else st

/-- The plan-hint dict derived by `RouterAgent.run`. -/
structure PlanHints where
  label : Str
  prefer_action_items : Bool
  prefer_key_points : Bool
  prefer_summary : Bool
deriving Repr, DecidableEq

/-- Plan-hint derivation of `RouterAgent.run`: base hints from the
classification label, then the action-verb override. -/
def routerPlanHints (transcript : Str) : PlanHints :=
  let label := (classifyTranscript transcript).label
  let base : PlanHints :=
    { label := label
      prefer_action_items := label = sMeeting ∨ label = sInterview
      prefer_key_points := label = sLecture ∨ label = sMeeting
      prefer_summary := true }
  if (extractActionVerbs transcript).length ≥ 2 then
    { base with prefer_action_items := true }
  else
    base

/-! ### Session Memory (`src/ai_backend/agents/memory.py`)

`AgentMemory` is polymorphic in the event-payload type `π` and the
kv-value type `κ`.  The backing `MemoryStore` is modelled as an oracle of
fallible operations (`Except Unit`): within the lifetime of one
`AgentMemory` the store is only read during the one-shot hydration of a
session, so mirror writes need no store state.  `created_at` timestamps
are real time and are not modelled. -/

structure MemEvent (π : Type) where
  type : Str
  payload : π
deriving Repr, DecidableEq

structure MemoryStore (π κ : Type) where
  load_kv : Str → Except Unit (List (Str × κ))
  load_events : Str → Except Unit (List (MemEvent π))
  put_kv : Str → Str → κ → Except Unit Unit
  add_event : Str → Str → π → Except Unit Unit

structure AgentMemory (π κ : Type) where
  events_by_session : Str → List (MemEvent π)
  kv_by_session : Str → List (Str × κ)
  loaded_sessions : List Str
  store : Option (MemoryStore π κ)

/-- A fresh `AgentMemory(store=...)`: empty caches, nothing loaded. -/
def AgentMemory.mk0 (store : Option (MemoryStore π κ)) : AgentMemory π κ :=
  { events_by_session := fun _ => []
    kv_by_session := fun _ => []
    loaded_sessions := []
    store := store }

/-- Python dict assignment `d[k] = v`: overwrite in place when the key is
present, else append (insertion order preserved). -/
def kvSet (l : List (Str × κ)) (k : Str) (v : κ) : List (Str × κ) :=
  if l.any (fun p => p.1 == k) then
    l.map (fun p => if p.1 == k then (p.1, v) else p)
  else
    l ++ [(k, v)]

/-- Python `d.get(k)` on the per-session dict. -/
def kvLookup (l : List (Str × κ)) (k : Str) : Option κ :=
  (l.find? (fun p => p.1 == k)).map Prod.snd

/-- Replace one session entry of the kv cache
(`self._kv_by_session[session_id] = ...`). -/
def kvUpdate (m : AgentMemory π κ) (sid : Str) (l : List (Str × κ)) :
    AgentMemory π κ :=
  { m with kv_by_session := fun s => if s = sid then l else m.kv_by_session s }

/-- Replace one session entry of the event cache
(`self._events_by_session[session_id] = ...`). -/
def eventsUpdate (m : AgentMemory π κ) (sid : Str) (evs : List (MemEvent π)) :
    AgentMemory π κ :=
  { m with events_by_session := fun s =>
      if s = sid then evs else m.events_by_session s }

/-- `AgentMemory._ensure_loaded`: one-shot lazy hydration; every store
failure is swallowed, leaving the cache as it was. -/
def AgentMemory.ensureLoaded (m : AgentMemory π κ) (sid : Str) :
    AgentMemory π κ :=
  if sid ∈ m.loaded_sessions then m
  else
    let m1 := { m with loaded_sessions := sid :: m.loaded_sessions }
    match m1.store with
    | none => m1
    | some st =>
      let m2 :=
        match st.load_kv sid with
        | .ok kv =>
          kvUpdate m1 sid
            (kv.foldl (fun d p => kvSet d p.1 p.2) (m1.kv_by_session sid))
        | .error _ => m1
      match st.load_events sid with
      | .ok evs =>
        if !evs.isEmpty then
          eventsUpdate m2 sid (m2.events_by_session sid ++ evs)
        else m2
      | .error _ => m2

/-- `AgentMemory.put`: cache write plus best-effort mirror write
(the mirror result is discarded whether it succeeds or fails). -/
def AgentMemory.put (m : AgentMemory π κ) (sid k : Str) (v : κ) :
    AgentMemory π κ :=
  let m1 := m.ensureLoaded sid
  let m2 := kvUpdate m1 sid (kvSet (m1.kv_by_session sid) k v)
  match m2.store with
  | some st =>
    match st.put_kv sid k v with
    | .ok _ => m2
    | .error _ => m2
  | none => m2

/-- `AgentMemory.get` with the default `None`: returns the value and the
possibly-hydrated memory. -/
def AgentMemory.get (m : AgentMemory π κ) (sid k : Str) :
    Option κ × AgentMemory π κ :=
  let m1 := m.ensureLoaded sid
  (kvLookup (m1.kv_by_session sid) k, m1)

/-- `AgentMemory.add_event`: cache append plus best-effort mirror write. -/
def AgentMemory.addEvent (m : AgentMemory π κ) (sid ty : Str) (p : π) :
    AgentMemory π κ :=
  let m1 := m.ensureLoaded sid
  let m2 := eventsUpdate m1 sid (m1.events_by_session sid ++ [MemEvent.mk ty p])
  match m2.store with
  | some st =>
    match st.add_event sid ty p with
    | .ok _ => m2
    | .error _ => m2
  | none => m2

/-- `AgentMemory.events`: a copy of the session event list. -/
def AgentMemory.eventsOf (m : AgentMemory π κ) (sid : Str) :
    List (MemEvent π) × AgentMemory π κ :=
  let m1 := m.ensureLoaded sid
  (m1.events_by_session sid, m1)

structure Snapshot (π κ : Type) where
  kv : List (Str × κ)
  events : List (MemEvent π)
deriving Repr, DecidableEq

/-- `AgentMemory.snapshot`. -/
def AgentMemory.snapshot (m : AgentMemory π κ) (sid : Str) :
    Snapshot π κ × AgentMemory π κ :=
  let m1 := m.ensureLoaded sid
  ({ kv := m1.kv_by_session sid, events := m1.events_by_session sid }, m1)

/-! ### Orchestrator (`src/ai_backend/agents/orchestrator.py`)

The pipeline instantiates `AgentMemory` with concrete payload and
kv-value types.  Event payloads record the data the source puts in the
payload dicts, except that the full tool-result dicts inside `tool_call`
payloads are elided to the tool name (no claim reads them). -/

inductive Payload where
  | toolCall (tool : Str)
  | planCreated (plan : List Str)
  | summaryGenerated (length : Nat)
  | keyPointsGenerated (count : Nat)
  | actionItemsGenerated (count : Nat)
  | evaluationDone (issues : List Issue)
  | refinerApplied (applied : List Str)
deriving Repr, DecidableEq

inductive KVVal where
  | classificationV (c : Classification)
  | entitiesV (es : List Entity)
  | actionVerbsV (vs : List Str)
  | planHintsV (h : PlanHints)
deriving Repr, DecidableEq

abbrev NotesMem := AgentMemory Payload KVVal

/-- Stage names, the keys of the agent registry and the plan entries. -/
def stRouter : Str := "router".toList

def stSummary : Str := "summary".toList

def stKeyPoints : Str := "key_points".toList

def stActionItems : Str := "action_items".toList

def stEvaluator : Str := "evaluator".toList

def stRefiner : Str := "refiner".toList

/-- Output dict of `RouterAgent.run`. -/
structure RouterOut where
  classification : Classification
  entities : List Entity
  action_verbs : List Str
  plan_hints : PlanHints
deriving Repr, DecidableEq

/-- `RouterAgent.run`: three tool calls, three audit events, four kv
writes, then the combined output. -/
def routerRun (sid t : Str) (m : NotesMem) : RouterOut × NotesMem :=
  let classification := classifyTranscript t
  let entities := extractEntities t
  let verbs := extractActionVerbs t
  let m := m.addEvent sid "tool_call".toList
    (.toolCall "classify_transcript".toList)
  let m := m.addEvent sid "tool_call".toList
    (.toolCall "extract_entities".toList)
  let m := m.addEvent sid "tool_call".toList
    (.toolCall "extract_action_verbs".toList)
  let hints := routerPlanHints t
  let m := m.put sid "classification".toList (.classificationV classification)
  let m := m.put sid "entities".toList (.entitiesV entities)
  let m := m.put sid "action_verbs".toList (.actionVerbsV verbs)
  let m := m.put sid "plan_hints".toList (.planHintsV hints)
  ({ classification := classification
     entities := entities
     action_verbs := verbs
     plan_hints := hints }, m)

/-- The refiner output dict `{"summary", "key_points", "action_items"}`. -/
structure RefOut where
  summary : Str
  key_points : List Str
  action_items : List Str
deriving Repr, DecidableEq

/-- `outputs["refiner"]`: either `{"skipped": True}` or the agent output. -/
inductive RefRecord where
  | skipped
  | ran (out : RefOut)
deriving Repr, DecidableEq

/-- `meta["refiner"]`: either `{"skipped": True, "reason": ...}` or
`{"applied": ..., "entities_used": ...}`. -/
inductive RefMeta where
  | skippedM (skipped : Bool) (reason : Str)
  | ranM (applied : List Str) (entities_used : List Str)
deriving Repr, DecidableEq

/-- The working context `outputs` of `NotesOrchestrator.run`
(dict with dynamically present keys, one optional field per key). -/
structure Outputs where
  router : Option RouterOut := none
  summary : Option Str := none
  key_points : Option (List Str) := none
  action_items : Option (List Str) := none
  evaluator : Option (List Issue) := none
  refiner : Option RefRecord := none
deriving Repr, DecidableEq

/-- The per-stage `meta` dict of `NotesOrchestrator.run`; each field
models the meta dict of one stage. -/
structure RunMeta where
  routerLabel : Option Str := none
  sentencesUsed : Option Nat := none
  kpCandidates : Option Nat := none
  aiCandidates : Option Nat := none
  issuesCount : Option Nat := none
  refinerMeta : Option RefMeta := none
deriving Repr, DecidableEq

structure StepState where
  outputs : Outputs
  meta : RunMeta
  mem : NotesMem

/-- The context read by `EvaluatorAgent.run` from the working dict. -/
def evalCtxOf (o : Outputs) : EvalCtx :=
  { summary := o.summary
    key_points := o.key_points.getD []
    action_items := o.action_items.getD [] }

/-- The context read by `RefinerAgent.run` from the working dict. -/
def refCtxOf (o : Outputs) : RefCtx :=
  { summary := o.summary
    key_points := o.key_points.getD []
    action_items := o.action_items.getD []
    issues := o.evaluator.getD [] }

/-- `(memory.get(session_id, "entities") or {}).get("entities") or []`. -/
def decodeEntities : Option KVVal → List Entity
  | some (.entitiesV es) => es
  | _ => []

/-- One iteration of the plan-execution loop of `NotesOrchestrator.run`
for a given step name.  The `router` step was executed before the loop
(`continue`).  An unknown step name would raise `KeyError` on the agent
registry in the source; plans built by `buildPlan` contain only known
names, so that branch is unreachable and modelled as a no-op. -/
def execStep (sid t : Str) (st : StepState) (step : Str) : StepState :=
  if step = stRouter then st
  else if step = stRefiner then
    let issues := st.outputs.evaluator.getD []
    if issues.isEmpty then
      { st with
        meta := { st.meta with
          refinerMeta := some (.skippedM true "no_issues".toList) }
        outputs := { st.outputs with refiner := some .skipped } }
    else
      let fetched := st.mem.get sid "entities".toList
      let es := decodeEntities fetched.1
      let r := refinerCompute t (refCtxOf st.outputs) es
      let m2 := fetched.2.addEvent sid "refiner_applied".toList
        (.refinerApplied r.applied)
      { outputs := { st.outputs with
          refiner := some (.ran ⟨r.summary, r.key_points, r.action_items⟩)
          summary := some r.summary
          key_points := some r.key_points
          action_items := some r.action_items }
        meta := { st.meta with
          refinerMeta := some (.ranM r.applied ((topEntities es).take 3)) }
        mem := m2 }
  else if step = stSummary then
    let out := summaryRun t
    let m2 := st.mem.addEvent sid "summary_generated".toList
      (.summaryGenerated out.length)
    { outputs := { st.outputs with summary := some out }
      meta := { st.meta with
        sentencesUsed := some (min (sentencesOf t).length 3) }
      mem := m2 }
  else if step = stKeyPoints then
    let out := keyPointsRun t
    let m2 := st.mem.addEvent sid "key_points_generated".toList
      (.keyPointsGenerated out.length)
    { outputs := { st.outputs with key_points := some out }
      meta := { st.meta with kpCandidates := some (sentencesOf t).length }
      mem := m2 }
  else if step = stActionItems then
    let out := actionItemsRun t
    let m2 := st.mem.addEvent sid "action_items_generated".toList
      (.actionItemsGenerated out.length)
    { outputs := { st.outputs with action_items := some out }
      meta := { st.meta with aiCandidates := some (sentencesOf t).length }
      mem := m2 }
  else if step = stEvaluator then
    let issues := evaluatorIssues (evalCtxOf st.outputs)
    let m2 := st.mem.addEvent sid "evaluation_done".toList
      (.evaluationDone issues)
    { outputs := { st.outputs with evaluator := some issues }
      meta := { st.meta with issuesCount := some issues.length }
      mem := m2 }
  else st

/-- Caller flags of `NotesOrchestrator.run`. -/
structure Flags where
  include_summary : Bool
  include_key_points : Bool
  include_action_items : Bool
deriving Repr, DecidableEq

/-- Plan construction of `NotesOrchestrator.run` (lines 25 to 54):
router first, OR-combination of flags and hints, specialists in priority
order, fixed evaluator-refiner-evaluator suffix. -/
def buildPlan (f : Flags) (hints : PlanHints) : List Str :=
  let prefer_action_items := f.include_action_items || hints.prefer_action_items
  let prefer_key_points := f.include_key_points || hints.prefer_key_points
  let prefer_summary := f.include_summary || hints.prefer_summary
  [stRouter] ++
  (if prefer_summary then [stSummary] else []) ++
  (if prefer_key_points then [stKeyPoints] else []) ++
  (if prefer_action_items then [stActionItems] else []) ++
  [stEvaluator, stRefiner, stEvaluator]

/-- The return dict of `NotesOrchestrator.run`. -/
structure RunResult where
  session_id : Str
  summary : Option Str
  key_points : List Str
  action_items : List Str
  evaluation : Option (List Issue)
  agent_meta : RunMeta
  memory : Snapshot Payload KVVal

/-- Occurrence count of a needle (number of match positions); used only
to express the spec reading of the scoring rule. -/
def countOcc (needle : Str) (hay : Str) : Nat :=
  match hay with
  | [] => 0
  | _ :: rest =>
    (if startsWithChars needle hay then 1 else 0) + countOcc needle rest

/-- Spec reading of the classification scores, for refinement comparison
with `categoryScore`.  Modelled from the spec sentence: score is the
count of matched keyword occurrences per category, so a keyword
occurring k times contributes k. -/
def specOccurrenceScore (t : Str) (keywords : List Str) : Nat :=
  (keywords.map (fun kw => countOcc kw (pyLower t))).sum

/-- Score lookup in a classification result. -/
def scoreOf (c : Classification) (cat : Str) : Nat :=
  ((c.scores.find? (fun p => p.1 == cat)).map Prod.snd).getD 0

/-- `NotesOrchestrator.run`: router, plan, sequential execution,
result assembly. -/
def orchestratorRun (m0 : NotesMem) (sid t : Str) (f : Flags) :
    RunResult × NotesMem :=
  let routed := routerRun sid t m0
  let rout := routed.1
  let plan := buildPlan f rout.plan_hints
  let m2 := routed.2.addEvent sid "plan_created".toList (.planCreated plan)
  let st0 : StepState :=
    { outputs := { router := some rout }
      meta := { routerLabel := some rout.classification.label }
      mem := m2 }
  let stF := plan.foldl (execStep sid t) st0
  let snapped := stF.mem.snapshot sid
  ({ session_id := sid
     summary := stF.outputs.summary
     key_points := stF.outputs.key_points.getD []
     action_items := stF.outputs.action_items.getD []
     evaluation := stF.outputs.evaluator
     agent_meta := stF.meta
     memory := snapped.1 }, snapped.2)

/-! ### Operation traces over Session Memory, for the persistence-fault
claims: an observable client run is a sequence of the five public
operations, each returning an observation. -/

inductive MemOp (π κ : Type) where
  | putOp (sid k : Str) (v : κ)
  | addEventOp (sid ty : Str) (p : π)
  | getOp (sid k : Str)
  | eventsOp (sid : Str)
  | snapshotOp (sid : Str)

inductive MemObs (π κ : Type) where
  | unitObs
  | valObs (v : Option κ)
  | eventsObs (evs : List (MemEvent π))
  | snapObs (s : Snapshot π κ)
deriving DecidableEq

def applyOp (m : AgentMemory π κ) : MemOp π κ → AgentMemory π κ × MemObs π κ
  | .putOp sid k v => (m.put sid k v, .unitObs)
  | .addEventOp sid ty p => (m.addEvent sid ty p, .unitObs)
  | .getOp sid k => ((m.get sid k).2, .valObs (m.get sid k).1)
  | .eventsOp sid => ((m.eventsOf sid).2, .eventsObs (m.eventsOf sid).1)
  | .snapshotOp sid => ((m.snapshot sid).2, .snapObs (m.snapshot sid).1)

/-- The observation trace of a sequence of operations. -/
def runOps (m : AgentMemory π κ) : List (MemOp π κ) → List (MemObs π κ)
  | [] => []
  | op :: rest => (applyOp m op).2 :: runOps (applyOp m op).1 rest

/-- A Memory Store in which every operation raises. -/
def failStore (π κ : Type) : MemoryStore π κ :=
  { load_kv := fun _ => .error ()
    load_events := fun _ => .error ()
    put_kv := fun _ _ _ => .error ()
    add_event := fun _ _ _ => .error () }

/-- A fresh orchestrator step state over a store-less memory, used as a
concrete evaluation point. -/
def sampleStepState : StepState :=
  { outputs := {}, meta := {}, mem := AgentMemory.mk0 none }

/-! ## Theorems -/

/-- Uppercasing never yields a lowercase letter (`Char.toUpper` either
maps a basic-latin lowercase letter into the uppercase range or leaves
the character unchanged, and an unchanged character was not lowercase). -/
theorem toUpper_not_isLower (c : Char) : (Char.toUpper c).isLower = false := by
  rw [Char.toUpper]
  split
  · rename_i h
    obtain ⟨h1, h2⟩ := h
    set n := c.toNat with hn
    interval_cases n <;> decide
  · rename_i h
    rw [Char.isLower]
    by_cases h97 : (97 : UInt32) ≤ c.val
    · have h97n : 97 ≤ Char.toNat c := UInt32.le_toNat_of_le (by decide) h97
      by_cases h122 : c.val ≤ (122 : UInt32)
      · exact absurd ⟨h97n, UInt32.toNat_le_of_le (by decide) h122⟩ h
      · simp [h122]
    · simp [h97]

/-- Shape of the sentence filter of the KeyPoints and ActionItems
agents: at most 5 items, each longer than 10 characters and starting
with a non-lowercase character. -/
theorem keywordPick_spec (kws : List Str) (t : Str) :
    (keywordPick kws t).length ≤ 5 ∧
    ∀ item ∈ keywordPick kws t,
      item.length > 10 ∧ item.head?.all (fun c => !c.isLower) = true := by
  constructor
  · exact List.length_take_le 5 _
  · intro item hmem
    have hm2 := List.mem_of_mem_take hmem
    rw [List.mem_filterMap] at hm2
    obtain ⟨s, _, hf⟩ := hm2
    split_ifs at hf with hkw hlen
    · have hitem : capFirst s = item := Option.some.inj hf
      refine ⟨hitem ▸ hlen, ?_⟩
      cases s with
      | nil =>
        simp [capFirst] at hlen
      | cons c cs =>
        rw [← hitem]
        simp [capFirst, toUpper_not_isLower]

/-- The per-category scoring loop counts the keywords that are present. -/
theorem foldl_if_count (text : Str) (l : List Str) (n : Nat) :
    l.foldl (fun n kw => if containsSub kw text then n + 1 else n) n =
      n + l.countP (fun kw => containsSub kw text) := by
  induction l generalizing n with
  | nil => simp
  | cons a l ih =>
    simp only [List.foldl_cons, List.countP_cons, ih]
    split_ifs <;> omega

/-- Claim C1: the plan built for a run is Router, then exactly the
specialists whose OR-combined preference (caller flag or router hint)
holds, in the fixed order Summary, KeyPoints, ActionItems, then the
fixed suffix Evaluator, Refiner, Evaluator. -/
theorem plan_structure (f : Flags) (t : Str) :
    buildPlan f (routerPlanHints t) =
      [stRouter] ++
      (([(stSummary, f.include_summary || (routerPlanHints t).prefer_summary),
         (stKeyPoints, f.include_key_points || (routerPlanHints t).prefer_key_points),
         (stActionItems,
          f.include_action_items || (routerPlanHints t).prefer_action_items)].filter
          Prod.snd).map Prod.fst) ++
      [stEvaluator, stRefiner, stEvaluator] := by
  simp only [buildPlan]
  cases f.include_summary || (routerPlanHints t).prefer_summary <;>
    cases f.include_key_points || (routerPlanHints t).prefer_key_points <;>
      cases f.include_action_items || (routerPlanHints t).prefer_action_items <;>
        simp [List.filter]

/-- Claim C2: the Evaluator reports empty_summary iff a summary key is
present and trims to empty, too_many_key_points iff the key-point count
exceeds 7, too_many_action_items iff the action-item count exceeds 7,
and reports no other issue types. -/
theorem evaluator_issue_characterization (ctx : EvalCtx) :
    ((∃ i ∈ evaluatorIssues ctx, i.type = sEmptySummary) ↔
      (∃ s, ctx.summary = some s ∧ pyStrip s = [])) ∧
    ((∃ i ∈ evaluatorIssues ctx, i.type = sTooManyKeyPoints) ↔
      ctx.key_points.length > 7) ∧
    ((∃ i ∈ evaluatorIssues ctx, i.type = sTooManyActionItems) ↔
      ctx.action_items.length > 7) ∧
    (∀ i ∈ evaluatorIssues ctx,
      i.type = sEmptySummary ∨ i.type = sTooManyKeyPoints ∨
        i.type = sTooManyActionItems) := by
  have d12 : sEmptySummary ≠ sTooManyKeyPoints := by decide
  have d21 : sTooManyKeyPoints ≠ sEmptySummary := by decide
  have d13 : sEmptySummary ≠ sTooManyActionItems := by decide
  have d31 : sTooManyActionItems ≠ sEmptySummary := by decide
  have d23 : sTooManyKeyPoints ≠ sTooManyActionItems := by decide
  have d32 : sTooManyActionItems ≠ sTooManyKeyPoints := by decide
  obtain ⟨os, kp, ai⟩ := ctx
  rcases os with _ | s <;>
    simp only [evaluatorIssues] <;>
    split_ifs <;>
      simp_all [List.length_eq_zero]

/-- Claim C2 witness: on a context with eight key points, the Evaluator
reports too_many_key_points. -/
theorem evaluator_issue_characterization_witness :
    ∃ i ∈ evaluatorIssues ⟨none, List.replicate 8 ([] : Str), []⟩,
      i.type = sTooManyKeyPoints :=
  (evaluator_issue_characterization ⟨none, List.replicate 8 [], []⟩).2.1.mpr
    (by decide)

/-- Claim C3 counterexample: for a transcript whose matching sentence
begins with a digit, the emitted key point does not start with an
uppercase character (Python `str.upper` leaves a digit unchanged). -/
theorem keypoints_uppercase_counterexample :
    ¬ (∀ item ∈ keyPointsRun "1 important thing to note.".toList,
        item.head?.all Char.isUpper = true) := by
  decide

/-- Claim C3 as amended: KeyPoints and ActionItems each emit at most 5
items, every item is longer than 10 characters, and every item starts
with a character that is not a lowercase letter (its first character has
been uppercased, so it is an uppercase letter whenever it is a letter at
all, but it may be a non-letter such as a digit). -/
theorem notes_items_shape (t : Str) :
    (keyPointsRun t).length ≤ 5 ∧ (actionItemsRun t).length ≤ 5 ∧
    ∀ item ∈ keyPointsRun t ++ actionItemsRun t,
      item.length > 10 ∧ item.head?.all (fun c => !c.isLower) = true := by
  refine ⟨keywordPick_spec importantKeywords t |>.1,
    keywordPick_spec actionItemVerbs t |>.1, ?_⟩
  intro item hmem
  rcases List.mem_append.mp hmem with h | h
  · exact (keywordPick_spec importantKeywords t).2 item h
  · exact (keywordPick_spec actionItemVerbs t).2 item h

/-- Claim C3 witness: a concrete emitted key point is longer than 10
characters and starts with a non-lowercase character. -/
theorem notes_items_shape_witness :
    ("1 important thing to note.".toList).length > 10 ∧
      ("1 important thing to note.".toList).head?.all
        (fun c => !c.isLower) = true :=
  (notes_items_shape "1 important thing to note.".toList).2.2
    "1 important thing to note.".toList (by decide)

/-- Claim C4 counterexample: on the transcript "agenda agenda", the
category scores of classify_transcript are not the per-occurrence counts
claimed by the spec (the keyword "agenda" occurs twice but contributes
only 1, because the code adds 1 per keyword present, not per occurrence). -/
theorem classify_occurrence_counterexample :
    ¬ ((classifyTranscript "agenda agenda".toList).scores =
        signals.map (fun p =>
          (p.1, specOccurrenceScore "agenda agenda".toList p.2))) := by
  decide

/-- Claim C4 as amended: each category score equals the number of
keywords of the category list that occur at least once as a substring of
the lower-cased transcript (a keyword occurring several times still
contributes exactly 1). -/
theorem classify_scores_presence_count (t : Str) :
    (classifyTranscript t).scores =
      signals.map (fun p =>
        (p.1, p.2.countP (fun kw => containsSub kw (pyLower t)))) := by
  simp only [classifyTranscript, categoryScore, foldl_if_count, Nat.zero_add]

/-- Claim C5: the classification label is the category with the
strictly highest score, ties resolving to the earlier category in table
order (meeting, lecture, interview), and "generic" when every score is
zero; in particular a meeting-lecture tie with positive score not
exceeded by interview yields "meeting". -/
theorem classify_label_priority (t : Str) :
    (classifyTranscript t).label =
      (if scoreOf (classifyTranscript t) sMeeting = 0 ∧
          scoreOf (classifyTranscript t) sLecture = 0 ∧
          scoreOf (classifyTranscript t) sInterview = 0 then sGeneric
       else if scoreOf (classifyTranscript t) sLecture ≤
              scoreOf (classifyTranscript t) sMeeting ∧
            scoreOf (classifyTranscript t) sInterview ≤
              scoreOf (classifyTranscript t) sMeeting then sMeeting
       else if scoreOf (classifyTranscript t) sMeeting <
              scoreOf (classifyTranscript t) sLecture ∧
            scoreOf (classifyTranscript t) sInterview ≤
              scoreOf (classifyTranscript t) sLecture then sLecture
       else sInterview) := by
  have e11 : (sMeeting == sMeeting) = true := by decide
  have e12 : (sMeeting == sLecture) = false := by decide
  have e13 : (sMeeting == sInterview) = false := by decide
  have e21 : (sLecture == sMeeting) = false := by decide
  have e22 : (sLecture == sLecture) = true := by decide
  have e23 : (sLecture == sInterview) = false := by decide
  have e31 : (sInterview == sMeeting) = false := by decide
  have e32 : (sInterview == sLecture) = false := by decide
  have e33 : (sInterview == sInterview) = true := by decide
  simp only [classifyTranscript, scoreOf, pickBest, signals]
  simp only [List.map_cons, List.map_nil, List.drop, List.foldl_cons,
    List.foldl_nil, List.find?, List.head!, e11, e12, e13, e21, e22, e23,
    e31, e32, e33, Option.map_some', Option.getD_some]
  split_ifs <;> first | rfl | omega

/-! ### Session Memory lemmas -/

/-- Hydration is one-shot: touching an already-loaded session is a no-op. -/
theorem ensureLoaded_of_mem (m : AgentMemory π κ) (sid : Str)
    (h : sid ∈ m.loaded_sessions) : m.ensureLoaded sid = m := by
  rw [AgentMemory.ensureLoaded, if_pos h]

/-- Hydration never changes the store handle. -/
theorem ensureLoaded_store (m : AgentMemory π κ) (sid : Str) :
    (m.ensureLoaded sid).store = m.store := by
  rw [AgentMemory.ensureLoaded]
  by_cases h : sid ∈ m.loaded_sessions
  · rw [if_pos h]
  · rw [if_neg h]
    cases hst : m.store with
    | none => simp [hst]
    | some s =>
      simp only [hst]
      rcases h1 : s.load_kv sid with e | kvv <;>
        rcases h2 : s.load_events sid with e2 | evv <;>
          simp [h1, h2, kvUpdate, eventsUpdate] <;> split_ifs <;> rfl

/-- After hydration the session is marked loaded. -/
theorem ensureLoaded_mem (m : AgentMemory π κ) (sid : Str) :
    sid ∈ (m.ensureLoaded sid).loaded_sessions := by
  rw [AgentMemory.ensureLoaded]
  by_cases h : sid ∈ m.loaded_sessions
  · rw [if_pos h]; exact h
  · rw [if_neg h]
    cases hst : m.store with
    | none => simp [hst]
    | some s =>
      simp only [hst]
      rcases h1 : s.load_kv sid with e | kvv <;>
        rcases h2 : s.load_events sid with e2 | evv <;>
          simp [h1, h2, kvUpdate, eventsUpdate] <;> split_ifs <;> simp

/-- Normal form of add_event: hydrate, then append to the session cache;
the mirror write has no observable effect. -/
theorem addEvent_eq (m : AgentMemory π κ) (sid ty : Str) (p : π) :
    m.addEvent sid ty p =
      eventsUpdate (m.ensureLoaded sid) sid
        ((m.ensureLoaded sid).events_by_session sid ++ [MemEvent.mk ty p]) := by
  rw [AgentMemory.addEvent]
  rcases hst : (m.ensureLoaded sid).store with _ | s
  · simp [eventsUpdate, hst]
  · simp only [eventsUpdate, hst]
    rcases h1 : s.add_event sid ty p with e | u <;> simp [h1, eventsUpdate]

/-- Normal form of put: hydrate, then set the key in the session cache;
the mirror write has no observable effect. -/
theorem put_eq (m : AgentMemory π κ) (sid k : Str) (v : κ) :
    m.put sid k v =
      kvUpdate (m.ensureLoaded sid) sid
        (kvSet ((m.ensureLoaded sid).kv_by_session sid) k v) := by
  rw [AgentMemory.put]
  rcases hst : (m.ensureLoaded sid).store with _ | s
  · simp [kvUpdate, hst]
  · simp only [kvUpdate, hst]
    rcases h1 : s.put_kv sid k v with e | u <;> simp [h1, kvUpdate]

/-- Hydrating a fresh memory from a store holding no events (or a failing
store) leaves the session event cache empty. -/
theorem mk0_hydrate_events (st : Option (MemoryStore π κ)) (sid : Str)
    (h : ∀ s, st = some s →
      s.load_events sid = .ok [] ∨ s.load_events sid = .error ()) :
    ((AgentMemory.mk0 st).ensureLoaded sid).events_by_session sid = [] := by
  rw [AgentMemory.ensureLoaded]
  rw [if_neg (by simp [AgentMemory.mk0])]
  cases st with
  | none => simp [AgentMemory.mk0]
  | some s =>
    simp only [AgentMemory.mk0]
    rcases h1 : s.load_kv sid with e | kvv <;>
      rcases h s rfl with h2 | h2 <;>
        simp [h1, h2, kvUpdate, eventsUpdate]

/-- Appending events in a loaded session appends to the cached list in
call order. -/
theorem foldl_addEvent_events (sid : Str) (calls : List (Str × π))
    (m : AgentMemory π κ) (h : sid ∈ m.loaded_sessions) :
    (calls.foldl (fun acc c => acc.addEvent sid c.1 c.2) m).events_by_session
        sid =
      m.events_by_session sid ++ calls.map (fun c => MemEvent.mk c.1 c.2) ∧
    sid ∈ (calls.foldl (fun acc c => acc.addEvent sid c.1 c.2)
        m).loaded_sessions := by
  induction calls generalizing m with
  | nil => exact ⟨by simp, h⟩
  | cons c rest ih =>
    simp only [List.foldl_cons]
    have he : m.addEvent sid c.1 c.2 =
        eventsUpdate m sid
          (m.events_by_session sid ++ [MemEvent.mk c.1 c.2]) := by
      rw [addEvent_eq, ensureLoaded_of_mem m sid h]
    rw [he]
    have h2 : sid ∈ (eventsUpdate m sid
        (m.events_by_session sid ++ [MemEvent.mk c.1 c.2])).loaded_sessions :=
      h
    obtain ⟨ha, hb⟩ := ih _ h2
    refine ⟨?_, hb⟩
    rw [ha]
    simp [eventsUpdate]

/-- Claim C8: after N add_event calls on a freshly created session,
snapshot returns exactly those N events, in call order, with the
submitted types and payloads. -/
theorem memory_event_roundtrip (π κ : Type) (st : Option (MemoryStore π κ))
    (sid : Str) (calls : List (Str × π))
    (h : ∀ s, st = some s →
      s.load_events sid = .ok [] ∨ s.load_events sid = .error ()) :
    ((calls.foldl (fun acc c => acc.addEvent sid c.1 c.2)
        (AgentMemory.mk0 st)).snapshot sid).1.events =
      calls.map (fun c => MemEvent.mk c.1 c.2) := by
  cases calls with
  | nil =>
    simp only [List.foldl_nil, AgentMemory.snapshot]
    simpa using mk0_hydrate_events st sid h
  | cons c rest =>
    simp only [List.foldl_cons]
    have he := addEvent_eq (AgentMemory.mk0 st) sid c.1 c.2
    set m1 := (AgentMemory.mk0 st).ensureLoaded sid with hm1
    have hev : m1.events_by_session sid = [] := mk0_hydrate_events st sid h
    have hld : sid ∈ m1.loaded_sessions := ensureLoaded_mem _ sid
    rw [he]
    have h2 : sid ∈ (eventsUpdate m1 sid
        (m1.events_by_session sid ++ [MemEvent.mk c.1 c.2])).loaded_sessions :=
      hld
    obtain ⟨ha, hb⟩ := foldl_addEvent_events sid rest _ h2
    rw [AgentMemory.snapshot]
    simp only [ensureLoaded_of_mem _ _ hb]
    rw [ha]
    simp [eventsUpdate, hev]

/-- Claim C8 witness: two concrete add_event calls on a fresh store-less
memory are returned verbatim by snapshot. -/
theorem memory_event_roundtrip_witness :
    ((([(("a".toList : Str), (1 : Nat)), ("b".toList, 2)]).foldl
        (fun acc c => acc.addEvent "s".toList c.1 c.2)
        (AgentMemory.mk0 (κ := Nat) none)).snapshot "s".toList).1.events =
      [MemEvent.mk "a".toList 1, MemEvent.mk "b".toList 2] :=
  memory_event_roundtrip Nat Nat none "s".toList
    [("a".toList, 1), ("b".toList, 2)] (fun s hs => by simp at hs)

/-- Hydration against the always-failing store reduces to marking the
session loaded. -/
theorem ensureLoaded_failStore (m : AgentMemory π κ) (sid : Str)
    (h : m.store = some (failStore π κ)) :
    m.ensureLoaded sid =
      if sid ∈ m.loaded_sessions then m
      else { m with loaded_sessions := sid :: m.loaded_sessions } := by
  rw [AgentMemory.ensureLoaded]
  by_cases hm : sid ∈ m.loaded_sessions
  · rw [if_pos hm, if_pos hm]
  · rw [if_neg hm, if_neg hm]
    simp [h, failStore]

/-- Hydration without a store likewise only marks the session loaded. -/
theorem ensureLoaded_none (m : AgentMemory π κ) (sid : Str)
    (h : m.store = none) :
    m.ensureLoaded sid =
      if sid ∈ m.loaded_sessions then m
      else { m with loaded_sessions := sid :: m.loaded_sessions } := by
  rw [AgentMemory.ensureLoaded]
  by_cases hm : sid ∈ m.loaded_sessions
  · rw [if_pos hm, if_pos hm]
  · rw [if_neg hm, if_neg hm]
    simp [h]

/-- One public operation behaves identically over an always-failing
store and over no store at all, given equal caches. -/
theorem applyOp_degrade (m1 m2 : AgentMemory π κ) (op : MemOp π κ)
    (h1 : m1.store = some (failStore π κ)) (h2 : m2.store = none)
    (he : m1.events_by_session = m2.events_by_session)
    (hk : m1.kv_by_session = m2.kv_by_session)
    (hl : m1.loaded_sessions = m2.loaded_sessions) :
    (applyOp m1 op).2 = (applyOp m2 op).2 ∧
    (applyOp m1 op).1.store = some (failStore π κ) ∧
    (applyOp m2 op).1.store = none ∧
    (applyOp m1 op).1.events_by_session =
      (applyOp m2 op).1.events_by_session ∧
    (applyOp m1 op).1.kv_by_session = (applyOp m2 op).1.kv_by_session ∧
    (applyOp m1 op).1.loaded_sessions = (applyOp m2 op).1.loaded_sessions := by
  have hel : ∀ sid, m1.ensureLoaded sid =
      (if sid ∈ m1.loaded_sessions then m1
       else { m1 with loaded_sessions := sid :: m1.loaded_sessions }) :=
    fun sid => ensureLoaded_failStore m1 sid h1
  have her : ∀ sid, m2.ensureLoaded sid =
      (if sid ∈ m2.loaded_sessions then m2
       else { m2 with loaded_sessions := sid :: m2.loaded_sessions }) :=
    fun sid => ensureLoaded_none m2 sid h2
  cases op <;>
    simp only [applyOp, AgentMemory.get, AgentMemory.eventsOf,
      AgentMemory.snapshot, put_eq, addEvent_eq, hel, her, hl] <;>
    split_ifs <;>
      simp_all [kvUpdate, eventsUpdate, failStore]

/-- Trace equivalence under degraded persistence, generalized over
starting caches. -/
theorem runOps_degrade (ops : List (MemOp π κ)) (m1 m2 : AgentMemory π κ)
    (h1 : m1.store = some (failStore π κ)) (h2 : m2.store = none)
    (he : m1.events_by_session = m2.events_by_session)
    (hk : m1.kv_by_session = m2.kv_by_session)
    (hl : m1.loaded_sessions = m2.loaded_sessions) :
    runOps m1 ops = runOps m2 ops := by
  induction ops generalizing m1 m2 with
  | nil => rfl
  | cons op rest ih =>
    obtain ⟨ho, hs1, hs2, he2, hk2, hl2⟩ :=
      applyOp_degrade m1 m2 op h1 h2 he hk hl
    simp only [runOps, ho]
    rw [ih _ _ hs1 hs2 he2 hk2 hl2]

/-- Claim C9: every sequence of Session Memory operations run over a
store whose every call raises produces exactly the observations of the
same sequence run with no store at all: failures are swallowed, every
operation returns normally, the in-process cache alone determines the
results, and hydration of a fresh session leaves its cache empty. -/
theorem failing_store_cache_only (π κ : Type) (ops : List (MemOp π κ)) :
    runOps (AgentMemory.mk0 (some (failStore π κ))) ops =
      runOps (AgentMemory.mk0 none) ops :=
  runOps_degrade ops _ _ rfl rfl rfl rfl rfl

/-! ### Refiner lemmas -/

/-- Claim C6 counterexample: with four memory entities, a non-empty
summary containing none of the top-3 entities but containing the fourth
entity receives no context hint (the code checks the top-5 entities,
not the top-3 the claim states). -/
theorem refiner_hint_top3_counterexample :
    (refinerCompute []
        ⟨some "Delta report is done".toList, [], [], []⟩
        [⟨"Alpha".toList, 4⟩, ⟨"Beta".toList, 3⟩, ⟨"Gamma".toList, 2⟩,
         ⟨"Delta".toList, 1⟩]).summary = "Delta report is done".toList ∧
    (∀ e ∈ (topEntities
        [⟨"Alpha".toList, 4⟩, ⟨"Beta".toList, 3⟩, ⟨"Gamma".toList, 2⟩,
         ⟨"Delta".toList, 1⟩]).take 3,
      containsSub e "Delta report is done".toList = false) ∧
    "Delta report is done".toList ≠ [] := by
  decide

/-- Claim C6 as amended: the containment check runs over the top-5
entity texts from memory; the hint (naming the top-3) is appended
exactly when the post-fix summary is non-empty, the top-entity list is
non-empty, and the summary contains none of those top-5 texts; when the
summary contains any of the top-5 (in particular one of the top-3), it
is left unchanged. -/
theorem refiner_entity_hint_top5 (t : Str) (ctx : RefCtx)
    (ents : List Entity) :
    ((refinerFixes t ctx).summary ≠ [] → topEntities ents ≠ [] →
      (∀ e ∈ topEntities ents,
        containsSub e (refinerFixes t ctx).summary = false) →
      (refinerCompute t ctx ents).summary =
        entityHint (refinerFixes t ctx).summary (topEntities ents)) ∧
    ((∃ e ∈ topEntities ents,
        containsSub e (refinerFixes t ctx).summary = true) →
      (refinerCompute t ctx ents).summary = (refinerFixes t ctx).summary) := by
  constructor
  · intro hs hne hnc
    unfold refinerCompute
    have h1 : (refinerFixes t ctx).summary.isEmpty = false := by
      cases h : (refinerFixes t ctx).summary
      · exact absurd h hs
      · rfl
    have h2 : (topEntities ents).isEmpty = false := by
      cases h : topEntities ents
      · exact absurd h hne
      · rfl
    have h3 : (topEntities ents).any
        (fun e => containsSub e (refinerFixes t ctx).summary) = false := by
      rw [List.any_eq_false]
      intro e hee
      simp [hnc e hee]
    simp [h1, h2, h3]
  · intro ⟨e, hmem2, hcon⟩
    unfold refinerCompute
    by_cases h0 : ((!(refinerFixes t ctx).summary.isEmpty) &&
        !(topEntities ents).isEmpty) = true
    · have h3 : (topEntities ents).any
          (fun e => containsSub e (refinerFixes t ctx).summary) = true :=
        List.any_eq_true.mpr ⟨e, hmem2, hcon⟩
      simp [h0, h3]
    · simp only [Bool.not_eq_true] at h0
      simp [h0]

/-- Claim C6 witness: a summary mentioning no entity gets the hint. -/
theorem refiner_entity_hint_top5_witness :
    (refinerCompute [] ⟨some "Report is ready".toList, [], [], []⟩
        [⟨"Alpha".toList, 2⟩]).summary =
      entityHint
        (refinerFixes [] ⟨some "Report is ready".toList, [], [], []⟩).summary
        (topEntities [⟨"Alpha".toList, 2⟩]) :=
  (refiner_entity_hint_top5 [] ⟨some "Report is ready".toList, [], [], []⟩
      [⟨"Alpha".toList, 2⟩]).1 (by decide) (by decide) (by decide)

/-! ### Orchestrator step lemmas -/

/-- The execution loop skips the router entry. -/
theorem execStep_router (sid t : Str) (st : StepState) :
    execStep sid t st stRouter = st := by
  rw [execStep, if_pos rfl]

/-- The refiner step with an empty most-recent issue list records the
skip and changes nothing else. -/
theorem execStep_refiner_skip (sid t : Str) (st : StepState)
    (h : st.outputs.evaluator.getD [] = []) :
    execStep sid t st stRefiner =
      { st with
        meta := { st.meta with
          refinerMeta := some (.skippedM true "no_issues".toList) }
        outputs := { st.outputs with refiner := some .skipped } } := by
  rw [execStep]
  rw [if_neg (by decide), if_pos rfl]
  simp [h]

/-- The evaluator step recomputes the issues from the working context
and appends one audit event. -/
theorem execStep_evaluator (sid t : Str) (st : StepState) :
    execStep sid t st stEvaluator =
      { outputs := { st.outputs with
          evaluator := some (evaluatorIssues (evalCtxOf st.outputs)) }
        meta := { st.meta with
          issuesCount := some (evaluatorIssues (evalCtxOf st.outputs)).length }
        mem := st.mem.addEvent sid "evaluation_done".toList
          (.evaluationDone (evaluatorIssues (evalCtxOf st.outputs))) } := by
  rw [execStep]
  rw [if_neg (by decide), if_neg (by decide), if_neg (by decide),
    if_neg (by decide), if_neg (by decide), if_pos rfl]

/-- The summary step stores the generated summary and appends one audit
event. -/
theorem execStep_summary (sid t : Str) (st : StepState) :
    execStep sid t st stSummary =
      { outputs := { st.outputs with summary := some (summaryRun t) }
        meta := { st.meta with
          sentencesUsed := some (min (sentencesOf t).length 3) }
        mem := st.mem.addEvent sid "summary_generated".toList
          (.summaryGenerated (summaryRun t).length) } := by
  rw [execStep]
  rw [if_neg (by decide), if_neg (by decide), if_pos rfl]

/-- Claim C7: whenever the most recent Evaluator output before the
Refiner step has an empty issue list, executing the trailing
refiner-evaluator pair records the skip ({skipped: true, reason:
no_issues}), leaves summary, key_points, action_items and the memory
untouched by the Refiner step, and still performs the final Evaluator
re-run (recomputed issues plus its audit event). -/
theorem refiner_skip_no_issues (sid t : Str) (st : StepState)
    (h : st.outputs.evaluator.getD [] = []) :
    List.foldl (execStep sid t) st [stRefiner, stEvaluator] =
      { outputs := { st.outputs with
          refiner := some .skipped
          evaluator := some (evaluatorIssues (evalCtxOf st.outputs)) }
        meta := { st.meta with
          refinerMeta := some (.skippedM true "no_issues".toList)
          issuesCount := some (evaluatorIssues (evalCtxOf st.outputs)).length }
        mem := st.mem.addEvent sid "evaluation_done".toList
          (.evaluationDone (evaluatorIssues (evalCtxOf st.outputs))) } := by
  simp only [List.foldl_cons, List.foldl_nil]
  rw [execStep_refiner_skip sid t st h, execStep_evaluator]
  simp [evalCtxOf]

/-- Claim C7 witness: on a fresh step state (no evaluator output, hence
an empty issue list) the refiner records the skip. -/
theorem refiner_skip_no_issues_witness :
    (List.foldl (execStep [] []) sampleStepState
        [stRefiner, stEvaluator]).outputs.refiner = some RefRecord.skipped :=
  congrArg (fun s => s.outputs.refiner)
    (refiner_skip_no_issues [] [] sampleStepState rfl)

/-- No step of the execution loop can remove a present summary. -/
theorem execStep_preserves_summary (sid t : Str) (st : StepState)
    (step : Str) (h : st.outputs.summary.isSome = true) :
    (execStep sid t st step).outputs.summary.isSome = true := by
  rw [execStep]
  split_ifs <;>
    simp_all [apply_ite (fun x : StepState => x.outputs.summary.isSome)]

/-- Plan execution preserves a present summary. -/
theorem foldl_execStep_preserves_summary (sid t : Str) (steps : List Str)
    (st : StepState) (h : st.outputs.summary.isSome = true) :
    (steps.foldl (execStep sid t) st).outputs.summary.isSome = true := by
  induction steps generalizing st with
  | nil => exact h
  | cons a rest ih =>
    exact ih _ (execStep_preserves_summary sid t st a h)

/-- The router output carries exactly the derived plan hints. -/
theorem routerRun_plan_hints (sid t : Str) (m : NotesMem) :
    (routerRun sid t m).1.plan_hints = routerPlanHints t := rfl

/-- The router always prefers a summary. -/
theorem routerPlanHints_prefer_summary (t : Str) :
    (routerPlanHints t).prefer_summary = true := by
  rw [routerPlanHints]
  split <;> rfl

/-- Claim C10: because the router hint prefer_summary is unconditionally
true and hints are OR-combined with the caller flags, the Summary stage
is always in the plan and the run result always carries a summary
string, regardless of include_summary. -/
theorem summary_always_present (m0 : NotesMem) (sid t : Str) (f : Flags) :
    stSummary ∈ buildPlan f (routerPlanHints t) ∧
    (orchestratorRun m0 sid t f).1.summary.isSome = true := by
  have hps : (routerPlanHints t).prefer_summary = true :=
    routerPlanHints_prefer_summary t
  have hplan : buildPlan f (routerPlanHints t) =
      stRouter :: stSummary ::
        ((if f.include_key_points || (routerPlanHints t).prefer_key_points
            then [stKeyPoints] else []) ++
         (if f.include_action_items || (routerPlanHints t).prefer_action_items
            then [stActionItems] else []) ++
         [stEvaluator, stRefiner, stEvaluator]) := by
    rw [buildPlan]
    simp [hps]
  constructor
  · rw [hplan]; simp
  · simp only [orchestratorRun, routerRun_plan_hints]
    rw [hplan]
    simp only [List.foldl_cons]
    rw [execStep_router, execStep_summary]
    apply foldl_execStep_preserves_summary
    simp

end Classmate
